import Mathlib

/-
Verification development for the cazy_webscraper repository.

Shallow embedding of the crawl scheduler, configuration guards, and the
relational store of the CAZy web scraper.  Python strings are embedded as
Lean String (or List Char where character indexing matters), Python dicts
as association lists in insertion order, and fallible Python computations
as Except values.  Components of the repository that are not part of the
provided sources (the crawler package and the sql_interface module) are
modelled from the design specification; every such definition carries a
doc comment saying so.
-/

/-! ### Python call binding: main versus get_cazy_data (cazy_webscraper.py) -/

/-- Parameter names of get_cazy_data as defined at cazy_webscraper.py lines
417 to 429.  None of the parameters carries a default value, so every one of
them must be supplied by a caller. -/
def get_cazy_data_params : List String :=
  ["cazy_home", "excluded_classes", "config_dict", "cazy_dict", "taxonomy_filters",
   "kingdoms", "ec_filters", "time_stamp", "session", "args", "limit_rate"]

/-- Positional arguments that main passes to get_cazy_data at
cazy_webscraper.py lines 194 to 205. -/
def main_call_args : List String :=
  ["cazy_home", "excluded_classes", "config_dict", "cazy_dict", "taxonomy_filters",
   "kingdoms", "ec_filters", "time_stamp", "session", "args"]

/-- Python binds a purely positional call to a function whose parameters all
lack defaults exactly when the argument count equals the parameter count;
otherwise the call raises TypeError before the body runs. -/
def python_call_binds (params supplied : List String) : Bool :=
  params.length = supplied.length

/-! ### Name resolution: sql_orm.py versus query_sql_db.py -/

/-- Model classes defined at module level in sql_orm.py (the ORM schema):
Cazyme, Taxonomy, CazyFamily, Genbank, Cazymes_Genbanks, EC, Uniprot, Pdb.
No Kingdom model is defined anywhere in the module. -/
def sql_orm_model_classes : List String :=
  ["Cazyme", "Taxonomy", "CazyFamily", "Genbank", "Cazymes_Genbanks", "EC", "Uniprot", "Pdb"]

/-- Columns of the Taxonomy model (table taxs) at sql_orm.py lines 225 to 233:
a surrogate key, genus and species.  There is no kingdom_id column. -/
def taxonomy_columns : List String := ["taxonomy_id", "genus", "species"]

/-- Names that query_sql_db.py imports from scraper.sql.sql_orm at lines
49 to 57 of expand/get_genbank_sequences/from_sql_db/query_sql_db.py. -/
def query_sql_db_imported_names : List String :=
  ["Cazyme", "CazyFamily", "Cazymes_Genbanks", "EC", "Genbank", "Kingdom", "Taxonomy"]

/-- Python resolves a from-import exactly when every requested name is
defined by the imported module; otherwise the import raises ImportError. -/
def from_import_resolves (defined requested : List String) : Bool :=
  requested.all (fun n => defined.contains n)

/-! ### check_download_size (cazy_webscraper.py lines 361 to 414) -/

/-- Runtime error raised by the Python interpreter. -/
inductive PyError where
  | typeError : String → PyError
deriving Repr, DecidableEq

/-- Fields of the command-line args object that check_download_size reads or
writes. -/
structure ScrapeArgs where
  complete_download : Bool
deriving Repr, DecidableEq

/-- Shallow embedding of check_download_size.  The configuration dictionary
is split into its classes entry and the list of per-class family values (the
values of every key other than classes).  The final guard of the source,
written len(families > 15), compares a list with an int and therefore raises
TypeError in Python 3 whenever that line is reached. -/
def check_download_size (args : ScrapeArgs) (excluded_classes : Option (List String))
    (config_classes : List String) (config_fam_values : List (Option (List String))) :
    Except PyError ScrapeArgs :=
  if args.complete_download then Except.ok args
  else if excluded_classes = none ∨ (excluded_classes.getD []).length < 4 then
    let classes := config_classes
    let families := config_fam_values.foldl
      (fun acc v =>
        match v with
        | some fams => acc ++ fams
        | none => acc) []
    if classes.length > 2 ∨ (families.length > 5 ∧ classes.length ≥ 2) then
      Except.ok { args with complete_download := true }
    else
      Except.error (PyError.typeError "unorderable operands list and int in len(families > 15)")
  else Except.ok args

/-! ### Family selection under a restrictive configuration
    (cazy_webscraper.py lines 578 to 593) -/

/-- Shallow embedding of the name_check computation at cazy_webscraper.py
lines 587 to 590: when subfamily retrieval is enabled and the family name
holds an underscore, the slice of the name up to the first underscore is
used for the membership test, otherwise the full name is used. -/
def name_check (subfamilies : Bool) (family_name : List Char) : List Char :=
  if subfamilies = true ∧ family_name.contains '_' then
    family_name.takeWhile (fun c => c ≠ '_')
  else family_name

/-- Shallow embedding of the membership test at cazy_webscraper.py line 592:
the discovered family is scraped unless name_check is absent from the names
configured for the owning class. -/
def family_scraped (subfamilies : Bool) (configured : List (List Char))
    (family_name : List Char) : Bool :=
  configured.contains (name_check subfamilies family_name)

/-- Specification reading of the prefix of a name up to the first
underscore: the first idxOf-many characters of the name. -/
def up_to_first_underscore (name : List Char) : List Char :=
  name.take (name.indexOf '_')

theorem takeWhile_ne_eq_take_indexOf (c : Char) (l : List Char) :
    l.takeWhile (fun x => x ≠ c) = l.take (l.indexOf c) := by
  induction l with
  | nil => rfl
  | cons a t ih =>
      by_cases h : a = c
      · subst h
        simp [List.takeWhile_cons, List.indexOf_cons_self]
      · have hb : (a == c) = false := by simp [h]
        simp only [List.takeWhile_cons, List.indexOf_cons, hb, cond_false]
        simp only [decide_not] at ih
        simp [h, ih]

/-- C9: under a restrictive configuration a discovered family is scraped
exactly when its name is one of the configured names, except that with
subfamily retrieval enabled and an underscore in the name, the prefix of the
name up to the first underscore is matched against the configured names
instead.  Membership of lists of characters is case-sensitive equality. -/
theorem C9_family_selection (subfamilies : Bool) (configured : List (List Char))
    (name : List Char) :
    family_scraped subfamilies configured name = true ↔
      (if subfamilies = true ∧ '_' ∈ name
       then up_to_first_underscore name ∈ configured
       else name ∈ configured) := by
  have hcontains : name.contains '_' = true ↔ '_' ∈ name := by simp
  unfold family_scraped name_check up_to_first_underscore
  by_cases h : subfamilies = true ∧ '_' ∈ name
  · rw [if_pos h, if_pos (show subfamilies = true ∧ name.contains '_' from
      ⟨h.1, hcontains.mpr h.2⟩), takeWhile_ne_eq_take_indexOf]
    simp
  · rw [if_neg h, if_neg (fun hx : subfamilies = true ∧ name.contains '_' =>
      h ⟨hx.1, hcontains.mp hx.2⟩)]
    simp

/-- C5: the claim that the call from main to get_cazy_data supplies every
required parameter fails on the code.  get_cazy_data declares eleven
parameters without defaults, the call in main supplies only ten positional
arguments, and the missing one is limit_rate, so every invocation that
reaches the scraping stage raises TypeError before any class is scraped. -/
theorem C5_main_call_not_wellformed :
    python_call_binds get_cazy_data_params main_call_args = false ∧
    "limit_rate" ∈ get_cazy_data_params ∧ "limit_rate" ∉ main_call_args := by
  decide

/-- C6: the claim that the persisted schema supports the kingdom queries
fails on the code.  sql_orm.py defines no Kingdom model and no kingdom_id
column on Taxonomy, while query_sql_db.py imports Kingdom from
scraper.sql.sql_orm, so that import raises ImportError and the kingdom-join
queries can never evaluate. -/
theorem C6_kingdom_schema_missing :
    from_import_resolves sql_orm_model_classes query_sql_db_imported_names = false ∧
    "Kingdom" ∉ sql_orm_model_classes ∧
    "kingdom_id" ∉ taxonomy_columns := by
  decide

/-- C4: the claim that every small request returns args unchanged without
raising an error fails on the code.  A request with no excluded classes, no
configured classes and no configured families reaches the final guard
len(families > 15), which raises TypeError; a request naming three classes
does engage the throttle as claimed. -/
theorem C4_check_download_size_raises :
    check_download_size ⟨false⟩ none [] [] =
      Except.error (PyError.typeError "unorderable operands list and int in len(families > 15)") ∧
    check_download_size ⟨false⟩ none ["GH", "PL", "CE"] [] = Except.ok ⟨true⟩ := by
  exact ⟨rfl, rfl⟩

/-! ### get_filter_set: three textually identical definitions
    (cazy_webscraper.py lines 336 to 358, cazy_pages/get_cazy_pages.py lines
    158 to 180, cazy_pages/scrape_local_cazy_pages.py lines 191 to 213) -/

namespace cazy_webscraper

/-- Shallow embedding of get_filter_set from cazy_webscraper.py.  The dict of
taxonomy filters is an association list in insertion order whose values are a
list of strings or None; len of None raises TypeError which the source
catches and passes, skipping that value. -/
def get_filter_set (taxonomy_filters_dict : List (String × Option (List String))) :
    Option (Finset String) :=
  let taxonomy_filters := taxonomy_filters_dict.foldl
    (fun acc kv =>
      match kv.2 with
      | none => acc
      | some v => if v.length ≠ 0 then acc ++ v else acc) []
  if taxonomy_filters.length = 0 then none else some taxonomy_filters.toFinset

end cazy_webscraper

namespace get_cazy_pages

/-- Shallow embedding of get_filter_set from cazy_pages/get_cazy_pages.py,
textually identical to the copy in cazy_webscraper.py. -/
def get_filter_set (taxonomy_filters_dict : List (String × Option (List String))) :
    Option (Finset String) :=
  let taxonomy_filters := taxonomy_filters_dict.foldl
    (fun acc kv =>
      match kv.2 with
      | none => acc
      | some v => if v.length ≠ 0 then acc ++ v else acc) []
  if taxonomy_filters.length = 0 then none else some taxonomy_filters.toFinset

end get_cazy_pages

namespace scrape_local_cazy_pages

/-- Shallow embedding of get_filter_set from
cazy_pages/scrape_local_cazy_pages.py, textually identical to the copy in
cazy_webscraper.py. -/
def get_filter_set (taxonomy_filters_dict : List (String × Option (List String))) :
    Option (Finset String) :=
  let taxonomy_filters := taxonomy_filters_dict.foldl
    (fun acc kv =>
      match kv.2 with
      | none => acc
      | some v => if v.length ≠ 0 then acc ++ v else acc) []
  if taxonomy_filters.length = 0 then none else some taxonomy_filters.toFinset

end scrape_local_cazy_pages

/-- Specification reading of get_filter_set: the set union of all non-empty
list values of the dict, returning none when every value is None or empty. -/
def filter_set_union_spec (d : List (String × Option (List String))) :
    Option (Finset String) :=
  let u := d.foldl
    (fun acc kv =>
      match kv.2 with
      | none => acc
      | some v => acc ∪ v.toFinset) (∅ : Finset String)
  if u = ∅ then none else some u

theorem gfs_list_fold_eq (d : List (String × Option (List String))) (acc : List String) :
    d.foldl
      (fun acc kv =>
        match kv.2 with
        | none => acc
        | some v => if v.length ≠ 0 then acc ++ v else acc) acc
      = acc ++ (d.filterMap (fun kv => kv.2)).flatten := by
  induction d generalizing acc with
  | nil => simp
  | cons kv t ih =>
      obtain ⟨k, ov⟩ := kv
      rw [List.foldl_cons]
      cases ov with
      | none =>
          rw [List.filterMap_cons_none (f := fun kv : String × Option (List String) => kv.2) rfl]
          exact ih acc
      | some v =>
          rw [List.filterMap_cons_some (f := fun kv : String × Option (List String) => kv.2) rfl, List.flatten_cons]
          dsimp only
          by_cases hlen : v.length ≠ 0
          · rw [if_pos hlen, ih (acc ++ v), List.append_assoc]
          · have hv : v = [] := by simpa using hlen
            rw [if_neg hlen]
            subst hv
            simpa using ih acc

theorem gfs_finset_fold_eq (d : List (String × Option (List String))) (u : Finset String) :
    d.foldl
      (fun acc kv =>
        match kv.2 with
        | none => acc
        | some v => acc ∪ v.toFinset) u
      = u ∪ ((d.filterMap (fun kv => kv.2)).flatten).toFinset := by
  induction d generalizing u with
  | nil => simp
  | cons kv t ih =>
      obtain ⟨k, ov⟩ := kv
      rw [List.foldl_cons]
      cases ov with
      | none =>
          rw [List.filterMap_cons_none (f := fun kv : String × Option (List String) => kv.2) rfl]
          simpa using ih u
      | some v =>
          rw [List.filterMap_cons_some (f := fun kv : String × Option (List String) => kv.2) rfl, List.flatten_cons, ih (u ∪ v.toFinset),
            List.toFinset_append, Finset.union_assoc]

/-- C10: the three definitions of get_filter_set are extensionally equal,
and each returns the set union of all non-empty list values of the dict,
returning none exactly when every value is None or empty. -/
theorem C10_get_filter_set_equivalent (d : List (String × Option (List String))) :
    cazy_webscraper.get_filter_set d = get_cazy_pages.get_filter_set d ∧
    cazy_webscraper.get_filter_set d = scrape_local_cazy_pages.get_filter_set d ∧
    cazy_webscraper.get_filter_set d = filter_set_union_spec d := by
  refine ⟨rfl, rfl, ?_⟩
  unfold cazy_webscraper.get_filter_set filter_set_union_spec
  rw [gfs_list_fold_eq, gfs_finset_fold_eq, List.nil_append, Finset.empty_union]
  by_cases hj : (d.filterMap (fun kv => kv.2)).flatten = []
  · simp [hj]
  · have h1 : ¬((d.filterMap (fun kv => kv.2)).flatten.length = 0) :=
      fun hc => hj (List.length_eq_zero.mp hc)
    have h2 : ¬((d.filterMap (fun kv => kv.2)).flatten.toFinset = ∅) :=
      fun hc => hj ((List.toFinset_eq_empty_iff _).mp hc)
    rw [if_neg h1, if_neg h2]

/-! ### Filter engine (modelled from the spec, section 4.4) -/

/-- Modelled from the spec: the crawler package holding the filter engine is
not among the provided sources.  A filter configuration holds the taxonomy
substrings, the kingdoms and the EC numbers; an empty axis means no
restriction on that axis (sections 4.4 and 6). -/
structure FilterConfig where
  taxonomy_filters : List String
  kingdoms : List String
  ec_filters : List String

/-- Modelled from the spec: a candidate protein record as the filter engine
sees it — the organism string, the kingdom and the EC-number set. -/
structure CandidateRecord where
  organism : String
  kingdom : String
  ec_numbers : List String

/-- Substring test on embedded strings: some suffix of t starts with s. -/
def is_substring (s t : String) : Bool :=
  t.data.tails.any (fun suf => s.data.isPrefixOf suf)

/-- Modelled from the spec: the taxonomy axis passes when any configured
substring occurs in the organism string of the record; no configured
substring passes unconditionally (section 4.4). -/
def taxonomy_filter_pass (cfg : FilterConfig) (r : CandidateRecord) : Bool :=
  cfg.taxonomy_filters.isEmpty ||
    cfg.taxonomy_filters.any (fun s => is_substring s r.organism)

/-- Case folding of an embedded string, character by character. -/
def lower_string (s : String) : List Char := s.data.map Char.toLower

/-- Modelled from the spec: the kingdom axis passes when the kingdom of the
record case-insensitively equals any configured kingdom; no configured
kingdom passes unconditionally (section 4.4). -/
def kingdom_filter_pass (cfg : FilterConfig) (r : CandidateRecord) : Bool :=
  cfg.kingdoms.isEmpty || cfg.kingdoms.any (fun k => lower_string k == lower_string r.kingdom)

/-- Modelled from the spec: the EC axis passes when the intersection of the
EC-number sets is non-empty; no configured EC number passes unconditionally
(section 4.4). -/
def ec_filter_pass (cfg : FilterConfig) (r : CandidateRecord) : Bool :=
  cfg.ec_filters.isEmpty || cfg.ec_filters.any (fun e => r.ec_numbers.contains e)

/-- Modelled from the spec: the combined record filter is the conjunction of
whichever of the three axes are configured (section 4.4). -/
def record_filter (cfg : FilterConfig) (r : CandidateRecord) : Bool :=
  taxonomy_filter_pass cfg r && kingdom_filter_pass cfg r && ec_filter_pass cfg r

/-- C7: with no axes configured the record filter accepts every record, and
with only kingdoms configured it accepts a record exactly when the kingdom
of the record equals one of the configured kingdoms ignoring case, rejecting
every record whose kingdom matches none of them. -/
theorem C7_record_filter_axes (r : CandidateRecord) (ks : List String) (h : ks ≠ []) :
    record_filter ⟨[], [], []⟩ r = true ∧
    (record_filter ⟨[], ks, []⟩ r = true ↔
      ∃ k ∈ ks, lower_string k = lower_string r.kingdom) := by
  constructor
  · rfl
  · unfold record_filter taxonomy_filter_pass kingdom_filter_pass ec_filter_pass
    simp [h, List.any_eq_true]

/-- Witness for C7 at a concrete record and a concrete kingdom
configuration. -/
theorem C7_record_filter_axes_witness :
    (["bacteria"] ≠ ([] : List String)) ∧
    record_filter ⟨[], ["bacteria"], []⟩ ⟨"Bacillus subtilis", "Bacteria", []⟩ = true := by
  refine ⟨by decide, ?_⟩
  exact (C7_record_filter_axes ⟨"Bacillus subtilis", "Bacteria", []⟩ ["bacteria"]
    (by decide)).2.mpr ⟨"bacteria", by decide, by decide⟩

/-! ### Pagination discovery (modelled from the spec, section 4.2) -/

/-- Modelled from the spec: the crawler package holding pagination discovery
is not among the provided sources.  A pagination window is addressed by its
numeric row offset and the first listing page has offset 0.  Given the last
window offset reported by the first page (none when no last-page control is
present), the discovered window set is the first page plus one window per
1000-row increment of the offset up to and including the last offset
(sections 4.2 and 8). -/
def pagination_windows (last_offset : Option Nat) : List Nat :=
  match last_offset with
  | none => [0]
  | some n => 0 :: (List.range (n / 1000)).map (fun i => (i + 1) * 1000)

/-- C8: for a family whose last pagination window reports offset N the
discovered window set holds exactly 1 + N / 1000 distinct windows — the
first page plus one per 1000-row increment up to and including N — and for a
family with no last-page control the single first page is the complete
listing. -/
theorem C8_pagination_windows (n : Nat) :
    (pagination_windows (some n)).length = 1 + n / 1000 ∧
    (pagination_windows (some n)).Nodup ∧
    pagination_windows none = [0] := by
  refine ⟨by simp [pagination_windows, Nat.add_comm], ?_, rfl⟩
  unfold pagination_windows
  refine List.nodup_cons.mpr ⟨?_, ?_⟩
  · simp
  · refine List.Nodup.map ?_ (List.nodup_range _)
    intro i j hij
    simpa using hij

/-! ### Crawl scheduler (get_cazy_data, cazy_webscraper.py lines 465 to 576) -/

/-- Lookup in an association list embedded from a Python dict (insertion
order preserved). -/
def alist_get (m : List (String × Nat)) (k : String) : Option Nat :=
  match m.find? (fun p => p.1 == k) with
  | some p => some p.2
  | none => none

/-- Update or append of a key in an association list, keeping insertion
order as a Python dict does. -/
def alist_set (m : List (String × Nat)) (k : String) (v : Nat) : List (String × Nat) :=
  if (m.find? (fun p => p.1 == k)).isSome then
    m.map (fun p => if p.1 == k then (p.1, v) else p)
  else m ++ [(k, v)]

/-- Deletion of a key from an association list. -/
def alist_del (m : List (String × Nat)) (k : String) : List (String × Nat) :=
  m.filter (fun p => p.1 != k)

/-- Modelled from the spec: transient scheduler state of one CAZy class
(section 3) — name, home-page URL, retry counter starting at zero, and the
map from failed family to its retry count.  The CazyClass type itself lives
in the crawler package, which is not among the provided sources. -/
structure CazyClassState where
  name : String
  url : String
  tries : Nat
  failed_families : List (String × Nat)

/-- Modelled from the spec: outcome environment of the crawl — the result of
get_cazy_family_urls for the class (none when the fetch fails, the family
list when it succeeds) and, per family, whether a scrape attempt of that
family fails so that retry_scrape is returned true together with one
connection-failure message (sections 4.2 and 4.3).  The claims under study
quantify over runs in which every attempt fails, so outcomes are constant
across passes. -/
structure CrawlEnv where
  family_urls : Option (List String)
  scrape_fails : String → Bool

/-- Scheduler state threaded through the loop of get_cazy_data for a single
class: the number of unprocessed occurrences of the class in the work-queue
list, the class object (shared by every queue occurrence, as in the source
where the same object is appended repeatedly), the count of scrape attempts
per family, and the connection-failures log. -/
structure SchedulerState where
  pending : Nat
  cls : CazyClassState
  scrape_attempts : List (String × Nat)
  conn_log : List String

/-- Connection-failure message that a failed family scrape contributes to
failed_url_connections (modelled from the spec, section 4.3). -/
def family_connection_error (fam : String) : String :=
  "connection failure scraping family " ++ fam

/-- Terminal connection-failure line for a class whose family-list fetch ran
out of retries (cazy_webscraper.py lines 494 to 497). -/
def class_terminal_error (clsname : String) : String :=
  "no CAZy families scraped from class " ++ clsname

/-- Body of the inner family loop of get_cazy_data (cazy_webscraper.py lines
513 to 576): scrape the family; when retry_scrape comes back true bump the
per-family counter in failed_families, deleting the family and skipping the
rest of the loop body once the counter reaches retries + 1; otherwise
re-append the class to the work queue whenever failed_families is non-empty
and then write the failed URL connections to the connection-failures log. -/
def process_family (retries : Nat) (env : CrawlEnv) (st : SchedulerState)
    (fam : String) : SchedulerState :=
  let bumped := alist_set st.scrape_attempts fam ((alist_get st.scrape_attempts fam).getD 0 + 1)
  let st := { st with scrape_attempts := bumped }
  let retry_scrape := env.scrape_fails fam
  let failed_urls := if retry_scrape then [family_connection_error fam] else []
  if retry_scrape then
    let n := (alist_get st.cls.failed_families fam).getD 0 + 1
    let cls2 := { st.cls with failed_families := alist_set st.cls.failed_families fam n }
    let st := { st with cls := cls2 }
    if n = retries + 1 then
      let cls3 := { st.cls with failed_families := alist_del st.cls.failed_families fam }
      { st with cls := cls3 }
    else
      let st : SchedulerState :=
        if st.cls.failed_families.length != 0 then { st with pending := st.pending + 1 } else st
      { st with conn_log := st.conn_log ++ failed_urls }
  else
    let st : SchedulerState :=
      if st.cls.failed_families.length != 0 then { st with pending := st.pending + 1 } else st
    { st with conn_log := st.conn_log ++ failed_urls }

/-- Body of the outer class loop of get_cazy_data (cazy_webscraper.py lines
471 to 507): on a first visit (empty failed-family map) fetch the family
list, a failed fetch counting against the class retry counter with the class
re-appended until the counter reaches retries + 1, at which point a terminal
failure is logged and the class dropped; on a later visit iterate over a
snapshot of the keys of the failed-family map. -/
def process_class (retries : Nat) (env : CrawlEnv) (st : SchedulerState) :
    SchedulerState :=
  let st := { st with pending := st.pending - 1 }
  if st.cls.failed_families.length = 0 then
    match env.family_urls with
    | none =>
        let st := { st with cls := { st.cls with tries := st.cls.tries + 1 } }
        if st.cls.tries = retries + 1 then
          { st with conn_log := st.conn_log ++ [class_terminal_error st.cls.name] }
        else { st with pending := st.pending + 1 }
    | some fams => fams.foldl (process_family retries env) st
  else
    (st.cls.failed_families.map (fun p => p.1)).foldl (process_family retries env) st

/-- Fueled run of the scheduler: process queue occurrences until the work
queue is empty or the fuel runs out. -/
def run_scheduler (retries : Nat) (env : CrawlEnv) : Nat → SchedulerState → SchedulerState
  | 0, st => st
  | fuel + 1, st =>
      if st.pending = 0 then st
      else run_scheduler retries env fuel (process_class retries env st)

/-- Initial scheduler state: one occurrence of the class in the work queue,
a fresh class object and empty instrumentation. -/
def initial_state (clsname clsurl : String) : SchedulerState :=
  ⟨1, ⟨clsname, clsurl, 0, []⟩, [], []⟩

/-- C1: the claim that no unit is ever attempted more than retries + 1 times
fails on the code.  With retries = 1 and a class holding two families whose
scrapes always fail, the class is re-appended once per failed family, so
after both families exhaust their counters a queued occurrence of the class
remains; its failed-family map is then empty, the first-visit branch runs
again, and each family is scraped a third time with a reset counter, beyond
the claimed ceiling of retries + 1 = 2 attempts. -/
theorem C1_retry_ceiling_violated :
    alist_get (run_scheduler 1 ⟨some ["GH1", "GH2"], fun _ => true⟩ 3
        (initial_state "GH" "gh_url")).scrape_attempts "GH1" = some 3 ∧
    1 + 1 < 3 := by
  exact ⟨rfl, by decide⟩

/-- C3: the claim that a family whose every pagination-window fetch fails on
retries + 1 consecutive passes appears exactly once in the
connection-failure log fails on the code.  The deletion branch at
abandonment skips the logging loop, so with retries = 0 the family is never
logged, and with retries = 2 it is logged on each of the two non-final
failing passes, twice in total. -/
theorem C3_abandoned_family_logging :
    (run_scheduler 0 ⟨some ["GH5"], fun _ => true⟩ 2
        (initial_state "GH" "u")).conn_log.count (family_connection_error "GH5") = 0 ∧
    (run_scheduler 2 ⟨some ["GH5"], fun _ => true⟩ 4
        (initial_state "GH" "u")).conn_log.count (family_connection_error "GH5") = 2 := by
  exact ⟨rfl, rfl⟩

/-! ### Relational store and the merge engine (schema from sql_orm.py; merge
    modelled from the spec, section 4.5, because the sql_interface module is
    not among the provided sources) -/

/-- Row of the taxs table (Taxonomy model, sql_orm.py lines 225 to 241). -/
structure TaxonomyRow where
  taxonomy_id : Nat
  genus : String
  species : String
deriving Repr, DecidableEq

/-- Row of the families table (CazyFamily model, sql_orm.py lines 244 to
274). -/
structure FamilyRow where
  family_id : Nat
  family : String
  subfamily : Option String
deriving Repr, DecidableEq

/-- Row of the cazymes table (Cazyme model, sql_orm.py lines 171 to 222). -/
structure CazymeRow where
  cazyme_id : Nat
  cazyme_name : String
  taxonomy_id : Nat
deriving Repr, DecidableEq

/-- Row of the genbanks table (Genbank model, sql_orm.py lines 277 to 300);
the sequence columns play no part in the claims under study. -/
structure GenbankRow where
  genbank_id : Nat
  genbank_accession : String
deriving Repr, DecidableEq

/-- Row of the cazymes_genbanks link table (Cazymes_Genbanks model,
sql_orm.py lines 303 to 332): its own link_id primary key, the two foreign
keys and the primary flag. -/
structure CazymesGenbanksRow where
  link_id : Nat
  cazyme_id : Nat
  genbank_id : Nat
  primary : Bool
deriving Repr, DecidableEq

/-- Row of an accession table with a string payload and an integer surrogate
key (the ecs, uniprots and pdbs models of sql_orm.py). -/
structure AccessionRow where
  acc_id : Nat
  accession : String
deriving Repr, DecidableEq

/-- Row of one of the four linker tables with a composite primary key over
both columns (cazymes_families, cazymes_ecs, cazymes_uniprots and
cazymes_pdbs, sql_orm.py lines 129 to 165). -/
structure LinkRow where
  cazyme_id : Nat
  entity_id : Nat
deriving Repr, DecidableEq

/-- State of the persisted store: one list of rows per table of the schema
of sql_orm.py. -/
structure Store where
  taxs : List TaxonomyRow
  families : List FamilyRow
  cazymes : List CazymeRow
  genbanks : List GenbankRow
  cazymes_genbanks : List CazymesGenbanksRow
  ecs : List AccessionRow
  uniprots : List AccessionRow
  pdbs : List AccessionRow
  cazymes_families : List LinkRow
  cazymes_ecs : List LinkRow
  cazymes_uniprots : List LinkRow
  cazymes_pdbs : List LinkRow

/-- Modelled from the spec: a parsed CAZyme row as the merge engine receives
it (sections 4.2 and 4.5) — name, organism split into genus and species,
family with optional subfamily, the single hyperlinked (primary) GenBank
accession, the non-hyperlinked synonym accessions, and the EC, UniProt and
PDB accession sets. -/
structure ParsedRecord where
  name : String
  genus : String
  species : String
  family : String
  subfamily : Option String
  primary_genbank : String
  genbank_synonyms : List String
  ec_numbers : List String
  uniprot_accessions : List String
  pdb_accessions : List String

/-- Fresh surrogate id: one past the largest id in use. -/
def fresh_id (ids : List Nat) : Nat := ids.foldl max 0 + 1

/-- Modelled from the spec: create-or-reuse of the Taxonomy entity by its
(genus, species) natural key (section 4.5 step 1). -/
def resolve_taxonomy (rows : List TaxonomyRow) (genus species : String) :
    List TaxonomyRow × Nat :=
  match rows.find? (fun t => t.genus == genus && t.species == species) with
  | some t => (rows, t.taxonomy_id)
  | none =>
      let tid := fresh_id (rows.map (fun t => t.taxonomy_id))
      (rows ++ [⟨tid, genus, species⟩], tid)

/-- Modelled from the spec: create-or-reuse of the CazyFamily entity by its
(family, subfamily) natural key (section 4.5 step 4). -/
def resolve_family (rows : List FamilyRow) (family : String)
    (subfamily : Option String) : List FamilyRow × Nat :=
  match rows.find? (fun f => f.family == family && f.subfamily == subfamily) with
  | some f => (rows, f.family_id)
  | none =>
      let fid := fresh_id (rows.map (fun f => f.family_id))
      (rows ++ [⟨fid, family, subfamily⟩], fid)

/-- Modelled from the spec: identity resolution of the CAZyme entity
(section 4.5 step 3) — reuse a CAZyme only when a matching name, taxonomy
and family combination was already created in this session, otherwise create
a new entity. -/
def resolve_cazyme (rows : List CazymeRow) (fam_links : List LinkRow)
    (name : String) (tid fid : Nat) : List CazymeRow × Nat :=
  match rows.find? (fun c => c.cazyme_name == name && c.taxonomy_id == tid &&
      fam_links.any (fun l => l.cazyme_id == c.cazyme_id && l.entity_id == fid)) with
  | some c => (rows, c.cazyme_id)
  | none =>
      let cid := fresh_id (rows.map (fun c => c.cazyme_id))
      (rows ++ [⟨cid, name, tid⟩], cid)

/-- Modelled from the spec: attachment of a many-to-many link without
duplicating an existing (CAZyme, entity) link (section 4.5 steps 4 and
6). -/
def attach_link (links : List LinkRow) (cid eid : Nat) : List LinkRow :=
  if links.any (fun l => l.cazyme_id == cid && l.entity_id == eid) then links
  else links ++ [⟨cid, eid⟩]

/-- Modelled from the spec: create-or-reuse of an accession entity by its
accession string (section 4.5 step 6). -/
def resolve_accession (rows : List AccessionRow) (acc : String) :
    List AccessionRow × Nat :=
  match rows.find? (fun a => a.accession == acc) with
  | some a => (rows, a.acc_id)
  | none =>
      let aid := fresh_id (rows.map (fun a => a.acc_id))
      (rows ++ [⟨aid, acc⟩], aid)

/-- Modelled from the spec: one step of section 4.5 step 6 — create-or-reuse
the accession entity, then attach the link when it is not already
present. -/
def add_accession_link (rows : List AccessionRow) (links : List LinkRow)
    (cid : Nat) (acc : String) : List AccessionRow × List LinkRow :=
  let p := resolve_accession rows acc
  (p.1, attach_link links cid p.2)

/-- Test of section 4.5 step 5: does the CAZyme already hold a GenBank link
resolving to this accession string. -/
def cazyme_has_genbank (genbanks : List GenbankRow) (links : List CazymesGenbanksRow)
    (cid : Nat) (acc : String) : Bool :=
  links.any (fun l => l.cazyme_id == cid &&
    genbanks.any (fun g => g.genbank_id == l.genbank_id && g.genbank_accession == acc))

/-- Test whether the CAZyme already holds a link flagged primary. -/
def cazyme_has_primary (links : List CazymesGenbanksRow) (cid : Nat) : Bool :=
  links.any (fun l => l.cazyme_id == cid && l.primary)

/-- Modelled from the spec: section 4.5 step 5 under the invariants of
section 3 — unless the CAZyme already holds a link resolving to this
accession string, create a new genbanks row for the string (accession
strings are not globally unique, each sighting becomes its own row) plus one
link; the link is flagged primary only for the hyperlinked accession and
only while the CAZyme holds no primary link yet, keeping at most one
primary link per CAZyme at a time. -/
def add_genbank_link (genbanks : List GenbankRow) (links : List CazymesGenbanksRow)
    (cid : Nat) (acc : String) (hyperlinked : Bool) :
    List GenbankRow × List CazymesGenbanksRow :=
  if cazyme_has_genbank genbanks links cid acc then (genbanks, links)
  else
    let gid := fresh_id (genbanks.map (fun g => g.genbank_id))
    let lid := fresh_id (links.map (fun l => l.link_id))
    let flag := hyperlinked && !(cazyme_has_primary links cid)
    (genbanks ++ [⟨gid, acc⟩], links ++ [⟨lid, cid, gid, flag⟩])

/-- Modelled from the spec: merge of one parsed record into the store
(section 4.5 steps 1 to 6).  The hyperlinked accession is attached first,
then every synonym distinct from it as a non-primary link, then the EC,
UniProt and PDB accessions through create-or-reuse plus link attachment. -/
def merge (s : Store) (r : ParsedRecord) : Store :=
  let tp := resolve_taxonomy s.taxs r.genus r.species
  let fp := resolve_family s.families r.family r.subfamily
  let cp := resolve_cazyme s.cazymes s.cazymes_families r.name tp.2 fp.2
  let fam_links := attach_link s.cazymes_families cp.2 fp.2
  let gb0 := add_genbank_link s.genbanks s.cazymes_genbanks cp.2 r.primary_genbank true
  let gb := (r.genbank_synonyms.filter (fun a => a != r.primary_genbank)).foldl
    (fun p a => add_genbank_link p.1 p.2 cp.2 a false) gb0
  let ec := r.ec_numbers.foldl (fun p e => add_accession_link p.1 p.2 cp.2 e)
    (s.ecs, s.cazymes_ecs)
  let up := r.uniprot_accessions.foldl (fun p a => add_accession_link p.1 p.2 cp.2 a)
    (s.uniprots, s.cazymes_uniprots)
  let pd := r.pdb_accessions.foldl (fun p a => add_accession_link p.1 p.2 cp.2 a)
    (s.pdbs, s.cazymes_pdbs)
  { taxs := tp.1
    families := fp.1
    cazymes := cp.1
    genbanks := gb.1
    cazymes_genbanks := gb.2
    ecs := ec.1
    uniprots := up.1
    pdbs := pd.1
    cazymes_families := fam_links
    cazymes_ecs := ec.2
    cazymes_uniprots := up.2
    cazymes_pdbs := pd.2 }

/-- Key by which the claim counts CazymeGenbank links: the CAZyme id
together with the accession string its genbank_id resolves to. -/
def gb_key (genbanks : List GenbankRow) (l : CazymesGenbanksRow) :
    Nat × Option String :=
  (l.cazyme_id, (genbanks.find? (fun g => g.genbank_id == l.genbank_id)).map
    (fun g => g.genbank_accession))

/-- Well-formedness of an accession table and its linker: unique accession
strings, unique surrogate ids, and no duplicate (CAZyme, entity) link
row. -/
structure AccTableInv (rows : List AccessionRow) (links : List LinkRow) : Prop where
  accs_nodup : (rows.map (fun a => a.accession)).Nodup
  ids_nodup : (rows.map (fun a => a.acc_id)).Nodup
  links_nodup : links.Nodup

/-- Well-formedness of the genbanks table and its link table: unique genbank
ids, links that resolve to a genbanks row, exactly one link row per (CAZyme,
accession string) pair, and at most one primary-flagged link per CAZyme. -/
structure GbInv (genbanks : List GenbankRow) (links : List CazymesGenbanksRow) : Prop where
  ids_nodup : (genbanks.map (fun g => g.genbank_id)).Nodup
  integrity : ∀ l ∈ links, l.genbank_id ∈ genbanks.map (fun g => g.genbank_id)
  keys_nodup : (links.map (gb_key genbanks)).Nodup
  one_primary : ∀ l1 ∈ links, ∀ l2 ∈ links, l1.primary = true → l2.primary = true →
    l1.cazyme_id = l2.cazyme_id → l1 = l2

/-- Invariant of the persisted store claimed by the design: at most one link
row per CAZyme and linked family, EC number, UniProt accession and PDB
accession entity (with entity tables keyed uniquely by accession string);
exactly one CazymeGenbankLink row per linked (CAZyme, GenBank accession)
pair; and at most one GenBank link per CAZyme flagged primary. -/
structure StoreInv (s : Store) : Prop where
  fam_links_nodup : s.cazymes_families.Nodup
  ec_inv : AccTableInv s.ecs s.cazymes_ecs
  uniprot_inv : AccTableInv s.uniprots s.cazymes_uniprots
  pdb_inv : AccTableInv s.pdbs s.cazymes_pdbs
  gb_inv : GbInv s.genbanks s.cazymes_genbanks

theorem le_foldl_max (l : List Nat) (a : Nat) : a ≤ l.foldl max a := by
  induction l generalizing a with
  | nil => exact Nat.le_refl a
  | cons b t ih => exact Nat.le_trans (Nat.le_max_left a b) (ih (max a b))

theorem mem_le_foldl_max (l : List Nat) : ∀ (a x : Nat), x ∈ l → x ≤ l.foldl max a := by
  induction l with
  | nil =>
      intro a x hx
      cases hx
  | cons b t ih =>
      intro a x hx
      rcases List.mem_cons.mp hx with h | h
      · subst h
        exact Nat.le_trans (Nat.le_max_right a x) (le_foldl_max t (max a x))
      · exact ih (max a b) x h

theorem fresh_id_not_mem (ids : List Nat) : fresh_id ids ∉ ids := by
  intro hmem
  have hle := mem_le_foldl_max ids 0 _ hmem
  unfold fresh_id at hle
  omega

theorem attach_link_nodup (links : List LinkRow) (cid eid : Nat) (h : links.Nodup) :
    (attach_link links cid eid).Nodup := by
  unfold attach_link
  by_cases hc : links.any (fun l => l.cazyme_id == cid && l.entity_id == eid) = true
  · rw [if_pos hc]
    exact h
  · rw [if_neg hc]
    refine List.Nodup.append h (List.nodup_singleton _) ?_
    intro a ha hb
    rcases List.mem_singleton.mp hb with rfl
    exact hc (List.any_eq_true.mpr ⟨⟨cid, eid⟩, ha, by simp⟩)

theorem add_accession_link_inv (rows : List AccessionRow) (links : List LinkRow)
    (cid : Nat) (acc : String) (h : AccTableInv rows links) :
    AccTableInv (add_accession_link rows links cid acc).1
      (add_accession_link rows links cid acc).2 := by
  unfold add_accession_link resolve_accession
  cases hfind : rows.find? (fun a => a.accession == acc) with
  | some a =>
      exact ⟨h.accs_nodup, h.ids_nodup, attach_link_nodup _ _ _ h.links_nodup⟩
  | none =>
      refine ⟨?_, ?_, attach_link_nodup _ _ _ h.links_nodup⟩
      · rw [List.map_append]
        refine List.Nodup.append h.accs_nodup (List.nodup_singleton _) ?_
        intro x hx hy
        rcases List.mem_singleton.mp hy with rfl
        rcases List.mem_map.mp hx with ⟨row, hrow, hacc⟩
        have hne := List.find?_eq_none.mp hfind row hrow
        simp only [beq_iff_eq] at hne
        exact hne hacc
      · rw [List.map_append]
        refine List.Nodup.append h.ids_nodup (List.nodup_singleton _) ?_
        intro x hx hy
        rcases List.mem_singleton.mp hy with rfl
        exact fresh_id_not_mem (rows.map (fun a => a.acc_id)) hx

theorem foldl_add_accession_link_inv (cid : Nat) (accs : List String) :
    ∀ (p : List AccessionRow × List LinkRow), AccTableInv p.1 p.2 →
    AccTableInv (accs.foldl (fun p a => add_accession_link p.1 p.2 cid a) p).1
      (accs.foldl (fun p a => add_accession_link p.1 p.2 cid a) p).2 := by
  induction accs with
  | nil =>
      intro p h
      exact h
  | cons a t ih =>
      intro p h
      exact ih _ (add_accession_link_inv _ _ _ _ h)

theorem find?_append_left {α : Type} (p : α → Bool) (l₁ l₂ : List α)
    (h : (l₁.find? p).isSome = true) : (l₁ ++ l₂).find? p = l₁.find? p := by
  induction l₁ with
  | nil => simp at h
  | cons a t ih =>
      cases hp : p a with
      | true => simp [List.find?_cons, hp]
      | false =>
          rw [List.find?_cons, hp] at h
          simp only [List.cons_append, List.find?_cons, hp]
          exact ih h

theorem find?_append_right {α : Type} (p : α → Bool) (l₁ l₂ : List α)
    (h : l₁.find? p = none) : (l₁ ++ l₂).find? p = l₂.find? p := by
  induction l₁ with
  | nil => simp
  | cons a t ih =>
      cases hp : p a with
      | true => rw [List.find?_cons, hp] at h; cases h
      | false =>
          rw [List.find?_cons, hp] at h
          simp only [List.cons_append, List.find?_cons, hp]
          exact ih h

theorem gb_key_append (genbanks : List GenbankRow) (g0 : GenbankRow)
    (l : CazymesGenbanksRow) (hl : l.genbank_id ∈ genbanks.map (fun g => g.genbank_id)) :
    gb_key (genbanks ++ [g0]) l = gb_key genbanks l := by
  unfold gb_key
  have hsome : (genbanks.find? (fun g => g.genbank_id == l.genbank_id)).isSome = true := by
    rw [List.find?_isSome]
    rcases List.mem_map.mp hl with ⟨g, hg, hid⟩
    exact ⟨g, hg, by simp [hid]⟩
  rw [find?_append_left _ _ _ hsome]

theorem gb_key_new (genbanks : List GenbankRow) (gid lid cid : Nat) (acc : String)
    (flag : Bool) (hgid : gid ∉ genbanks.map (fun g => g.genbank_id)) :
    gb_key (genbanks ++ [⟨gid, acc⟩]) ⟨lid, cid, gid, flag⟩ = (cid, some acc) := by
  unfold gb_key
  have hnone : genbanks.find? (fun g => g.genbank_id == gid) = none := by
    rw [List.find?_eq_none]
    intro g hg
    simp only [beq_iff_eq]
    intro hEq
    exact hgid (List.mem_map.mpr ⟨g, hg, hEq⟩)
  dsimp
  rw [find?_append_right _ _ _ hnone]
  simp [List.find?_cons]

theorem gb_append_inv (genbanks : List GenbankRow) (links : List CazymesGenbanksRow)
    (gid lid cid : Nat) (acc : String) (flag : Bool)
    (h : GbInv genbanks links)
    (hgid : gid ∉ genbanks.map (fun g => g.genbank_id))
    (hnew : cazyme_has_genbank genbanks links cid acc = false)
    (hflag : flag = true → cazyme_has_primary links cid = false) :
    GbInv (genbanks ++ [⟨gid, acc⟩]) (links ++ [⟨lid, cid, gid, flag⟩]) := by
  refine ⟨?_, ?_, ?_, ?_⟩
  · simp only [List.map_append, List.map_cons, List.map_nil]
    refine List.Nodup.append h.ids_nodup (List.nodup_singleton _) ?_
    intro x hx hy
    rcases List.mem_singleton.mp hy with rfl
    exact hgid hx
  · intro l hl
    simp only [List.map_append, List.map_cons, List.map_nil]
    rcases List.mem_append.mp hl with hold | hnewl
    · exact List.mem_append.mpr (Or.inl (h.integrity l hold))
    · rcases List.mem_singleton.mp hnewl with rfl
      exact List.mem_append.mpr (Or.inr (by simp))
  · simp only [List.map_append, List.map_cons, List.map_nil]
    have hmap : links.map (gb_key (genbanks ++ [⟨gid, acc⟩])) = links.map (gb_key genbanks) :=
      List.map_congr_left (fun l hl => gb_key_append _ _ _ (h.integrity l hl))
    rw [hmap, gb_key_new genbanks gid lid cid acc flag hgid]
    refine List.Nodup.append h.keys_nodup (List.nodup_singleton _) ?_
    intro k hk hk2
    rcases List.mem_singleton.mp hk2 with rfl
    rcases List.mem_map.mp hk with ⟨l, hl, hkey⟩
    unfold gb_key at hkey
    have hcaz : l.cazyme_id = cid := congrArg Prod.fst hkey
    have haccmap : (genbanks.find? (fun g => g.genbank_id == l.genbank_id)).map
        (fun g => g.genbank_accession) = some acc := congrArg Prod.snd hkey
    rcases Option.map_eq_some'.mp haccmap with ⟨g, hgfind, hgacc⟩
    have hgmem : g ∈ genbanks := List.mem_of_find?_eq_some hgfind
    have hgpred : (g.genbank_id == l.genbank_id) = true :=
      List.find?_some (p := fun g : GenbankRow => g.genbank_id == l.genbank_id) hgfind
    have : cazyme_has_genbank genbanks links cid acc = true := by
      unfold cazyme_has_genbank
      refine List.any_eq_true.mpr ⟨l, hl, ?_⟩
      rw [Bool.and_eq_true]
      refine ⟨by simp [hcaz], ?_⟩
      exact List.any_eq_true.mpr ⟨g, hgmem, by rw [Bool.and_eq_true]
                                               exact ⟨hgpred, by simp [hgacc]⟩⟩
    rw [hnew] at this
    cases this
  · intro l1 h1 l2 h2 hp1 hp2 hcz
    rcases List.mem_append.mp h1 with h1o | h1n
    · rcases List.mem_append.mp h2 with h2o | h2n
      · exact h.one_primary l1 h1o l2 h2o hp1 hp2 hcz
      · rcases List.mem_singleton.mp h2n with rfl
        exfalso
        have hhp : cazyme_has_primary links cid = true := by
          unfold cazyme_has_primary
          refine List.any_eq_true.mpr ⟨l1, h1o, ?_⟩
          rw [Bool.and_eq_true]
          exact ⟨by simp [hcz], hp1⟩
        have hfl : cazyme_has_primary links cid = false := hflag hp2
        rw [hhp] at hfl
        cases hfl
    · rcases List.mem_singleton.mp h1n with rfl
      rcases List.mem_append.mp h2 with h2o | h2n
      · exfalso
        have hhp : cazyme_has_primary links cid = true := by
          unfold cazyme_has_primary
          refine List.any_eq_true.mpr ⟨l2, h2o, ?_⟩
          rw [Bool.and_eq_true]
          exact ⟨by simp [← hcz], hp2⟩
        have hfl : cazyme_has_primary links cid = false := hflag hp1
        rw [hhp] at hfl
        cases hfl
      · rcases List.mem_singleton.mp h2n with rfl
        rfl

theorem add_genbank_link_inv (genbanks : List GenbankRow) (links : List CazymesGenbanksRow)
    (cid : Nat) (acc : String) (hyp : Bool) (h : GbInv genbanks links) :
    GbInv (add_genbank_link genbanks links cid acc hyp).1
      (add_genbank_link genbanks links cid acc hyp).2 := by
  unfold add_genbank_link
  by_cases hc : cazyme_has_genbank genbanks links cid acc = true
  · rw [if_pos hc]
    exact h
  · rw [if_neg hc]
    exact gb_append_inv genbanks links
      (fresh_id (genbanks.map (fun g => g.genbank_id)))
      (fresh_id (links.map (fun l => l.link_id)))
      cid acc (hyp && !cazyme_has_primary links cid) h
      (fresh_id_not_mem _)
      (by simpa using hc)
      (fun hf => by
        rw [Bool.and_eq_true] at hf
        simpa using hf.2)

theorem foldl_add_genbank_link_inv (cid : Nat) (accs : List String) :
    ∀ (p : List GenbankRow × List CazymesGenbanksRow), GbInv p.1 p.2 →
    GbInv (accs.foldl (fun p a => add_genbank_link p.1 p.2 cid a false) p).1
      (accs.foldl (fun p a => add_genbank_link p.1 p.2 cid a false) p).2 := by
  induction accs with
  | nil =>
      intro p h
      exact h
  | cons a t ih =>
      intro p h
      exact ih _ (add_genbank_link_inv _ _ _ _ _ h)

/-- C2: the invariant of the persisted store — at most one link row per
CAZyme and linked CazyFamily, EC number, UniProt accession and PDB accession
entity; exactly one CazymeGenbankLink row per linked (CAZyme, GenBank
accession) pair; and at most one GenBank link per CAZyme flagged primary —
is preserved by every merge of a parsed record into the store. -/
theorem C2_merge_preserves_store_invariant (s : Store) (r : ParsedRecord)
    (h : StoreInv s) : StoreInv (merge s r) := by
  refine ⟨?_, ?_, ?_, ?_, ?_⟩
  · exact attach_link_nodup _ _ _ h.fam_links_nodup
  · exact foldl_add_accession_link_inv _ _ _ h.ec_inv
  · exact foldl_add_accession_link_inv _ _ _ h.uniprot_inv
  · exact foldl_add_accession_link_inv _ _ _ h.pdb_inv
  · exact foldl_add_genbank_link_inv _ _ _ (add_genbank_link_inv _ _ _ _ _ h.gb_inv)

/-- Store with every table empty. -/
def empty_store : Store := ⟨[], [], [], [], [], [], [], [], [], [], [], []⟩

/-- Sample parsed record used by the merge witness. -/
def sample_record : ParsedRecord :=
  ⟨"ProtA", "Foo", "bar", "GH1", none, "ABC123.1", ["ABC123.1", "XYZ456.2"],
   ["3.2.1.4"], ["P12345"], ["1ABC"]⟩

/-- Witness for C2: the empty store satisfies the invariant, and so does the
merge of a concrete parsed record into it. -/
theorem C2_merge_preserves_store_invariant_witness :
    StoreInv empty_store ∧ StoreInv (merge empty_store sample_record) := by
  have h0 : StoreInv empty_store := by
    refine ⟨?_, ⟨?_, ?_, ?_⟩, ⟨?_, ?_, ?_⟩, ⟨?_, ?_, ?_⟩, ⟨?_, ?_, ?_, ?_⟩⟩ <;>
      simp [empty_store]
  exact ⟨h0, C2_merge_preserves_store_invariant empty_store sample_record h0⟩
